import Mathlib

/-!
Verification development for the serverless samples in this repository:
a CRUD API backed by a key-value table (sample 02) and a file-upload
pipeline with an event-driven processing stage (sample 03).  The Python
handlers are shallowly embedded as executable Lean functions; external
collaborators (the object store and the key-value table) are modelled as
explicit state threaded through each handler, with a fault environment
standing in for the fact that every remote call may raise.
-/

/-! ## String helpers shared by both samples -/

/-- Boolean test that `p` is a prefix of `s`, on the underlying character
lists.  Models Python's `str.startswith`. -/
def startsWithL : List Char → List Char → Bool
  | [], _ => true
  | _ :: _, [] => false
  | p :: ps, c :: cs => p = c && startsWithL ps cs

/-- `strStarts p s` models Python's `s.startswith(p)`. -/
def strStarts (p s : String) : Bool :=
  startsWithL p.data s.data

/-- The final path component: everything after the last `'/'`
(the whole list when no `'/'` occurs). -/
def lastComp (s : List Char) : List Char :=
  s.foldl (fun acc c => if c = '/' then [] else acc ++ [c]) []

/-- Suffix starting at the last `'.'` of the list (empty when no dot
occurs).  Used on a path component whose leading dots were stripped. -/
def extScan (s : List Char) : List Char :=
  s.foldl (fun acc c => if c = '.' then ['.'] else if acc = [] then [] else acc ++ [c]) []

/-- The extension part of `os.path.splitext`: the suffix of the last path
component starting at its last dot, where leading dots of the component
count as part of the root (so `".bashrc"` has extension `""`). -/
def splitext_ext (s : String) : String :=
  String.mk (extScan ((lastComp s.data).dropWhile (fun c => c = '.')))

/-- Models Python's `str.lower` (the repository only lowercases ASCII
file extensions). -/
def lowerStr (s : String) : String :=
  String.mk (s.data.map Char.toLower)

/-- Hexadecimal value of a character, if any. -/
def hexVal? (c : Char) : Option Nat :=
  if '0' ≤ c ∧ c ≤ '9' then some (c.toNat - 48)
  else if 'a' ≤ c ∧ c ≤ 'f' then some (c.toNat - 87)
  else if 'A' ≤ c ∧ c ≤ 'F' then some (c.toNat - 70)
  else none

/-- Character-list worker for `unquote_plus`. -/
def unquotePlusL : List Char → List Char
  | [] => []
  | '+' :: rest => ' ' :: unquotePlusL rest
  | '%' :: c1 :: c2 :: rest =>
    match hexVal? c1, hexVal? c2 with
    | some h, some l => Char.ofNat (16 * h + l) :: unquotePlusL rest
    | _, _ => '%' :: unquotePlusL (c1 :: c2 :: rest)
  | c :: rest => c :: unquotePlusL rest

/-- Models `urllib.parse.unquote_plus` on the single-byte (ASCII) range:
`'+'` becomes a space and `%XX` hex escapes are decoded.  Multi-byte
UTF-8 percent sequences are outside the modelled range; every key
appearing in a theorem below is plain ASCII without escapes. -/
def unquote_plus (s : String) : String :=
  String.mk (unquotePlusL s.data)

/-! ## Sample 03: shared configuration (environment variables)

`MAX_FILE_SIZE_MB`, `ALLOWED_FILE_TYPES`, bucket names and the
image-resize feature flag are read from the environment by both the API
handler and the file processor of sample 03. -/

structure Config where
  maxFileSizeMB : Int
  allowedFileTypes : List String
  uploadBucket : String
  processedBucket : String
  enableImageResize : Bool
deriving Repr, DecidableEq

/-- The defaults used when the environment sets nothing:
`MAX_FILE_SIZE_MB = 10`, `ALLOWED_FILE_TYPES = '.jpg,.png,.pdf'`,
`ENABLE_IMAGE_RESIZE = true`. -/
def defaultConfig : Config :=
  { maxFileSizeMB := 10
    allowedFileTypes := [".jpg", ".png", ".pdf"]
    uploadBucket := "upload-bucket"
    processedBucket := "processed-bucket"
    enableImageResize := true }

namespace FileProc

/-- A stored object: size and content type as reported by `head_object`,
the body bytes, and the user metadata map. -/
structure S3Object where
  size : Int
  contentType : String
  content : List Nat
  metadata : List (String × String)
deriving Repr, DecidableEq

/-- The object store: entries `(bucket, key, object)`. -/
abbrev Store := List (String × String × S3Object)

/-- Look up the object stored under `(bucket, key)`. -/
def lookupStore : Store → String → String → Option S3Object
  | [], _, _ => none
  | (b', k', o) :: rest, b, k =>
    if b' = b ∧ k' = k then some o else lookupStore rest b k

/-- Remove every entry under `(bucket, key)`. -/
def eraseStore : Store → String → String → Store
  | [], _, _ => []
  | (b', k', o) :: rest, b, k =>
    if b' = b ∧ k' = k then eraseStore rest b k
    else (b', k', o) :: eraseStore rest b k

/-- Store `o` under `(bucket, key)`, replacing any previous object. -/
def putStore (st : Store) (b k : String) (o : S3Object) : Store :=
  (b, k, o) :: eraseStore st b k

/-- `file_processor.validate_file`: size against
`MAX_FILE_SIZE_MB * 1024 * 1024` first, then the lowercased extension of
the object key against the allow-list.  The `content_type` argument is
accepted and ignored, as in the source. -/
def validate_file (cfg : Config) (object_key : String) (file_size : Int)
    (content_type : String) : Bool :=
  let max_size_bytes := cfg.maxFileSizeMB * 1024 * 1024
  if file_size > max_size_bytes then false
  else
    let file_extension := lowerStr (splitext_ext object_key)
    if ¬ (cfg.allowedFileTypes.contains file_extension) then false
    else
      let _ := content_type
      true

end FileProc

namespace FileProc

/-- One remote call against the object store; the fault environment is
indexed by these. -/
inductive S3Op
  | headOp (bucket key : String)
  | getOp (bucket key : String)
  | putOp (bucket key : String)
  | copyOp (srcBucket srcKey dstBucket dstKey : String)
  | delOp (bucket key : String)
deriving Repr, DecidableEq

/-- A fault environment: for each remote call, either `none` (the call
behaves normally) or `some msg` (the call raises `msg`).  This captures
that every boto3 call in the source sits inside `try`/`except` and may
fail for reasons outside the program. -/
abbrev Env := S3Op → Option String

/-- The environment in which no remote call fails. -/
def realEnv : Env := fun _ => none

/-- `s3_client.head_object`: returns the stored object's attributes, or
raises when the key is absent (or the call is faulted). -/
def head_object (env : Env) (bucket key : String) (st : Store) :
    Except String S3Object × Store :=
  match env (S3Op.headOp bucket key) with
  | some e => (.error e, st)
  | none =>
    match lookupStore st bucket key with
    | some o => (.ok o, st)
    | none => (.error ("NoSuchKey: " ++ bucket ++ "/" ++ key), st)

/-- `s3_client.get_object` (only the body/content-type are read by this
program). -/
def get_object (env : Env) (bucket key : String) (st : Store) :
    Except String S3Object × Store :=
  match env (S3Op.getOp bucket key) with
  | some e => (.error e, st)
  | none =>
    match lookupStore st bucket key with
    | some o => (.ok o, st)
    | none => (.error ("NoSuchKey: " ++ bucket ++ "/" ++ key), st)

/-- `s3_client.put_object`: stores the given bytes with the given
content type and metadata. -/
def put_object (env : Env) (bucket key : String) (content : List Nat)
    (ctype : String) (meta : List (String × String)) (st : Store) :
    Except String Unit × Store :=
  match env (S3Op.putOp bucket key) with
  | some e => (.error e, st)
  | none => (.ok (), putStore st bucket key ⟨(content.length : Int), ctype, content, meta⟩)

/-- `s3_client.copy_object` with `MetadataDirective='REPLACE'`: the
destination receives the source's bytes, size and content type, with the
metadata replaced by `meta`.  Raises when the source key is absent. -/
def copy_object (env : Env) (srcBucket srcKey dstBucket dstKey : String)
    (meta : List (String × String)) (st : Store) : Except String Unit × Store :=
  match env (S3Op.copyOp srcBucket srcKey dstBucket dstKey) with
  | some e => (.error e, st)
  | none =>
    match lookupStore st srcBucket srcKey with
    | some o => (.ok (), putStore st dstBucket dstKey ⟨o.size, o.contentType, o.content, meta⟩)
    | none => (.error ("NoSuchKey: " ++ srcBucket ++ "/" ++ srcKey), st)

/-- `s3_client.delete_object`: deleting an absent key succeeds, as in S3. -/
def delete_object (env : Env) (bucket key : String) (st : Store) :
    Except String Unit × Store :=
  match env (S3Op.delOp bucket key) with
  | some e => (.error e, st)
  | none => (.ok (), eraseStore st bucket key)

/-- `file_processor.move_to_quarantine`: copy to `quarantine/{key}` in
the same bucket with the quarantine metadata, then delete the original.
The source wraps this in a `try` that logs and re-raises, which is the
identity on the result. -/
def move_to_quarantine (env : Env) (bucket key reason : String) (st : Store) :
    Except String Unit × Store :=
  match copy_object env bucket key bucket ("quarantine/" ++ key)
      [("quarantine-reason", reason), ("original-key", key),
       ("quarantined-by", "file-upload-system")] st with
  | (.error e, st') => (.error e, st')
  | (.ok _, st') => delete_object env bucket key st'

/-- `file_processor.move_to_processed`: copy to `processed/{key}` in the
processed bucket with the processing metadata, then delete the source. -/
def move_to_processed (cfg : Config) (env : Env) (bucket key : String) (st : Store) :
    Except String Unit × Store :=
  match copy_object env bucket key cfg.processedBucket ("processed/" ++ key)
      [("original-key", key), ("processed-by", "file-upload-system"),
       ("processing-status", "completed")] st with
  | (.error e, st') => (.error e, st')
  | (.ok _, st') => delete_object env bucket key st'

/-- `file_processor.process_image`: read the full object, write the
identical bytes to the processed bucket under `processed/{key}` with the
processing metadata (no transform is performed), then delete the source. -/
def process_image (cfg : Config) (env : Env) (bucket key : String) (st : Store) :
    Except String Unit × Store :=
  match get_object env bucket key st with
  | (.error e, st') => (.error e, st')
  | (.ok obj, st') =>
    match put_object env cfg.processedBucket ("processed/" ++ key) obj.content
        obj.contentType
        [("original-key", key), ("processed-by", "file-upload-system"),
         ("processing-status", "completed")] st' with
    | (.error e, st'') => (.error e, st'')
    | (.ok _, st'') => delete_object env bucket key st''

/-- The dispatch of `process_uploaded_file` (its `if`/`else` after
validation): the image path when the content type starts with `image/`
and resizing is enabled, the pass-through path otherwise. -/
def dispatch_processing (cfg : Config) (env : Env) (bucket key content_type : String)
    (st : Store) : Except String Unit × Store :=
  if strStarts "image/" content_type && cfg.enableImageResize then
    process_image cfg env bucket key st
  else
    move_to_processed cfg env bucket key st

/-- `file_processor.process_uploaded_file`: head the object, quarantine
with reason "Validation failed" when validation fails, otherwise run the
dispatched processing step; any exception from this attempt is caught
and answered by quarantining with reason `"Processing error: {e}"`
(from the state the failed attempt left behind, as in Python). -/
def process_uploaded_file (cfg : Config) (env : Env) (bucket key : String)
    (st : Store) : Except String Unit × Store :=
  let attempt : Except String Unit × Store :=
    match head_object env bucket key st with
    | (.error e, st') => (.error e, st')
    | (.ok obj, st') =>
      if ! validate_file cfg key obj.size obj.contentType then
        move_to_quarantine env bucket key "Validation failed" st'
      else
        dispatch_processing cfg env bucket key obj.contentType st'
  match attempt with
  | (.ok u, st') => (.ok u, st')
  | (.error e, st') => move_to_quarantine env bucket key ("Processing error: " ++ e) st'

/-- One S3 event record as consumed by the processor. -/
structure S3Record where
  eventSource : String
  eventName : String
  bucket : String
  objectKey : String
deriving Repr, DecidableEq

/-- `file_processor.process_s3_event`: URL-decode the key; process
`ObjectCreated*` events, log-only for `ObjectRemoved*` and anything else. -/
def process_s3_event (cfg : Config) (env : Env) (r : S3Record) (st : Store) :
    Except String Unit × Store :=
  let object_key := unquote_plus r.objectKey
  if strStarts "ObjectCreated" r.eventName then
    process_uploaded_file cfg env r.bucket object_key st
  else
    (.ok (), st)

/-- The record loop of `file_processor.lambda_handler`: process each
`aws:s3` record in order, propagating the first exception. -/
def handleRecords (cfg : Config) (env : Env) : List S3Record → Store →
    Except String Unit × Store
  | [], st => (.ok (), st)
  | r :: rest, st =>
    if r.eventSource = "aws:s3" then
      match process_s3_event cfg env r st with
      | (.error e, st') => (.error e, st')
      | (.ok _, st') => handleRecords cfg env rest st'
    else
      handleRecords cfg env rest st

/-- `file_processor.lambda_handler`: returns
`{'statusCode': 200, 'body': 'Successfully processed files'}` when every
record is handled; an exception is logged and re-raised. -/
def lambda_handler (cfg : Config) (env : Env) (records : List S3Record)
    (st : Store) : Except String (Nat × String) × Store :=
  match handleRecords cfg env records st with
  | (.ok _, st') => (.ok (200, "Successfully processed files"), st')
  | (.error e, st') => (.error e, st')

end FileProc

namespace UploadApi

/-- `api_handler.validate_upload_request` (sample 03): lowercased
extension of the filename against the allow-list first, then the
declared size against the same byte maximum. -/
def validate_upload_request (cfg : Config) (filename : String) (file_size : Int) : Bool :=
  let file_extension := lowerStr (splitext_ext filename)
  if ¬ (cfg.allowedFileTypes.contains file_extension) then false
  else if file_size > cfg.maxFileSizeMB * 1024 * 1024 then false
  else true

/-- JSON body of a `POST /upload` request, as read by `get_upload_url`. -/
structure UploadBody where
  filename : Option String
  content_type : Option String
  file_size : Option Int
deriving Repr, DecidableEq

/-- Response body of `get_upload_url`: an error envelope or the presigned
upload credential. -/
inductive UploadResp
  | err (msg : String)
  | ok (upload_url file_id file_key : String) (expires_in : Int)
deriving Repr, DecidableEq

/-- Stands in for `s3_client.generate_presigned_url('put_object', ...)`:
the URL's contents matter to no claim, only that a write credential for
this bucket and key is produced. -/
def presignPut (bucket key : String) : String :=
  "presigned-put:" ++ bucket ++ ":" ++ key

/-- `api_handler.get_upload_url` (sample 03): require a body and a
filename (Python truthiness: `None` and `""` both fail), validate, then
issue the credential for `uploads/{file_id}/{filename}` with
`ExpiresIn=900`.  The fresh `uuid.uuid4()` is passed in as `file_id`. -/
def get_upload_url (cfg : Config) (file_id : String) (body : Option UploadBody) :
    Nat × UploadResp :=
  match body with
  | none => (400, .err "Request body required")
  | some b =>
    let file_size := b.file_size.getD 0
    match b.filename with
    | none => (400, .err "filename is required")
    | some filename =>
      if filename = "" then (400, .err "filename is required")
      else if ! validate_upload_request cfg filename file_size then
        (400, .err "Invalid file")
      else
        let file_key := "uploads/" ++ file_id ++ "/" ++ filename
        (200, .ok (presignPut cfg.uploadBucket file_key) file_id file_key 900)

/-- Nonemptiness of `list_objects_v2(Bucket=b, Prefix=p)`: is some object
of bucket `b` stored under a key starting with `p`?  (`'Contents' in
objects` in the source.) -/
def existsObjPfx (st : FileProc.Store) (b p : String) : Bool :=
  st.any fun e => decide (e.1 = b) && strStarts p e.2.1

/-- Response body of `get_processing_status`. -/
inductive StatusResp
  | err (msg : String)
  | ok (file_id status message : String)
deriving Repr, DecidableEq

/-- `api_handler.get_processing_status` (sample 03): processed area
first (`completed`), then incoming area (`processing`), else
`not_found`; always HTTP 200 once a file id is supplied. -/
def get_processing_status (cfg : Config) (st : FileProc.Store) (file_id : String) :
    Nat × StatusResp :=
  if file_id = "" then (400, .err "file_id is required")
  else
    let upload_has := existsObjPfx st cfg.uploadBucket ("uploads/" ++ file_id ++ "/")
    let processed_has :=
      existsObjPfx st cfg.processedBucket ("processed/uploads/" ++ file_id ++ "/")
    if processed_has then (200, .ok file_id "completed" "File processing completed")
    else if upload_has then (200, .ok file_id "processing" "File is being processed")
    else (200, .ok file_id "not_found" "File not found")

/-- The `status` field of a `get_processing_status` response. -/
def statusField : Nat × StatusResp → Option String
  | (_, .ok _ s _) => some s
  | (_, .err _) => none

end UploadApi

namespace Crud

/-- JSON values stored in an item.  Nested values never matter to a
claim; the caller-supplied fields the claims quantify over are drawn
from these. -/
inductive JVal
  | str (s : String)
  | num (n : Int)
  | boolean (b : Bool)
  | null
deriving Repr, DecidableEq

/-- A Python dict with string keys, as an insertion-ordered association
list with unique keys. -/
abbrev Dict := List (String × JVal)

/-- `d[k]` / `d.get(k)`: first binding of `k`. -/
def getk : Dict → String → Option JVal
  | [], _ => none
  | (k', v) :: rest, k => if k' = k then some v else getk rest k

/-- `d[k] = v`: replace the binding in place, else append — Python dict
assignment. -/
def setk : Dict → String → JVal → Dict
  | [], k, v => [(k, v)]
  | (k', v') :: rest, k, v =>
    if k' = k then (k, v) :: rest else (k', v') :: setk rest k v

/-- The key-value table: item id → stored item. -/
abbrev Table := List (String × Dict)

/-- `table.get_item(Key={'id': id})`. -/
def tget : Table → String → Option Dict
  | [], _ => none
  | (i, it) :: rest, id => if i = id then some it else tget rest id

/-- Remove an id's record. -/
def terase : Table → String → Table
  | [], _ => []
  | (i, it) :: rest, id =>
    if i = id then terase rest id else (i, it) :: terase rest id

/-- `table.put_item` / the write-back of `update_item`: overwrite the
record under this id. -/
def tput (t : Table) (id : String) (it : Dict) : Table :=
  (id, it) :: terase t id

/-- Models `format_datetime`, the human-readable rendering of an ISO
timestamp.  The rendering itself is outside every claim — `format_item`
only injects it into the `*_display` annotation fields, which no claim
reads — so it is kept abstract as the identity on the string. -/
def format_datetime (iso_string : String) : String :=
  iso_string

/-- One `if 'field' in formatted: formatted[alias] = format_datetime(...)`
block of `format_item`: when `field` is present, store its rendering
under `alias` (a non-string value is returned unchanged by
`format_datetime`'s fallback and stored as-is). -/
def annotate (d : Dict) (field aliasKey : String) : Dict :=
  match getk d field with
  | some (JVal.str s) => setk d aliasKey (JVal.str (format_datetime s))
  | some v => setk d aliasKey v
  | none => d

/-- `api_handler.format_item` (sample 02): copy the item and annotate it
with `created_at_display` / `updated_at_display` when the corresponding
timestamps are present. -/
def format_item (item : Dict) : Dict :=
  annotate (annotate item "created_at" "created_at_display")
    "updated_at" "updated_at_display"

/-- The custom-field loop of `create_item`: merge every caller-supplied
field except `id`, `created_at`, `updated_at` into the item, in body
order. -/
def mergeBody : Dict → Dict → Dict
  | item, [] => item
  | item, kv :: rest =>
    mergeBody
      (if kv.1 = "id" ∨ kv.1 = "created_at" ∨ kv.1 = "updated_at" then item
       else setk item kv.1 kv.2)
      rest

/-- Response bodies of the CRUD handlers. -/
inductive CrudResp
  | err (msg : String)
  | item (it : Dict) (msg : String)
  | items (its : List Dict) (count : Nat) (msg : String)
  | deleted (msg deleted_id : String)
deriving Repr, DecidableEq

/-- `api_handler.create_item` (sample 02): reject an empty body;
otherwise build the item from defaults plus the caller's fields (the
fresh `uuid.uuid4()` is passed in as `item_id`, `datetime.now()` as
`now`), store it, and return it formatted with HTTP 201. -/
def create_item (tbl : Table) (item_id now : String) (body : Dict) :
    (Nat × CrudResp) × Table :=
  if body = [] then ((400, .err "Request body is required"), tbl)
  else
    let item0 : Dict :=
      [("id", JVal.str item_id),
       ("name", (getk body "name").getD (JVal.str "Untitled")),
       ("description", (getk body "description").getD (JVal.str "")),
       ("category", (getk body "category").getD (JVal.str "general")),
       ("created_at", JVal.str now),
       ("updated_at", JVal.str now),
       ("status", JVal.str "active")]
    let item := mergeBody item0 body
    ((201, .item (format_item item) ("Item " ++ item_id ++ " created successfully")),
     tput tbl item_id item)

/-- Is this field name excluded from the update merge
(`key not in ['id', 'created_at']`)? -/
def excludedUpd (k : String) : Bool :=
  k == "id" || k == "created_at"

/-- The `UpdateExpression` of `update_item`, structurally: one
`{key} = :{key}` clause per non-excluded body field, in body order
(the leading `updated_at = :updated_at` clause is added at the use
site). -/
def buildAssigns (body : Dict) : List (String × String) :=
  body.filterMap fun kv =>
    if excludedUpd kv.1 then none else some (kv.1, ":" ++ kv.1)

/-- The `ExpressionAttributeValues` of `update_item`: starts at
`{':updated_at': now}` and assigns `:{key} ↦ value` per non-excluded
body field — a later assignment to the same name replaces the earlier
one, as in a Python dict. -/
def buildVals : Dict → Dict → Dict
  | acc, [] => acc
  | acc, kv :: rest =>
    buildVals (if excludedUpd kv.1 then acc else setk acc (":" ++ kv.1) kv.2) rest

/-- DynamoDB's application of the `SET` clauses: each named attribute is
set to its expression value, in clause order. -/
def applyAssigns (vals : Dict) : List (String × String) → Dict → Dict
  | [], item => item
  | a :: rest, item =>
    applyAssigns vals rest
      (match getk vals a.2 with
       | some v => setk item a.1 v
       | none => item)

/-- `api_handler.update_item` (sample 02): reject an empty body, then
require prior existence; merge every non-excluded caller field and the
`updated_at` refresh through the update expression, store the result
(`ReturnValues='ALL_NEW'`), and return it formatted. -/
def update_item (tbl : Table) (item_id now : String) (body : Dict) :
    (Nat × CrudResp) × Table :=
  if body = [] then ((400, .err "Request body is required"), tbl)
  else
    match tget tbl item_id with
    | none => ((404, .err ("Item with id " ++ item_id ++ " not found")), tbl)
    | some existing =>
      let vals := buildVals [(":updated_at", JVal.str now)] body
      let assigns := ("updated_at", ":updated_at") :: buildAssigns body
      let newItem := applyAssigns vals assigns existing
      ((200, .item (format_item newItem) ("Item " ++ item_id ++ " updated successfully")),
       tput tbl item_id newItem)

/-- Digit-string value, if the list is a nonempty run of ASCII digits. -/
def digitsVal? (l : List Char) : Option Nat :=
  if !l.isEmpty && l.all Char.isDigit then
    some (l.foldl (fun a c => a * 10 + (c.toNat - 48)) 0)
  else none

/-- Models Python's `int(str)` on the forms the handler can meet: an
optional sign followed by digits (surrounding whitespace and underscore
separators are outside the modelled range); anything else raises
`ValueError`, i.e. `none`. -/
def pyInt? (s : String) : Option Int :=
  match s.data with
  | '-' :: rest => (digitsVal? rest).map fun n => -(n : Int)
  | '+' :: rest => (digitsVal? rest).map fun n => (n : Int)
  | l => (digitsVal? l).map fun n => (n : Int)

/-- Models `table.scan`: without `Limit` all records are returned; with
`Limit=n` DynamoDB requires `n ≥ 1` (a `ValidationException` otherwise)
and returns at most the first `n` records. -/
def scanT (tbl : Table) (lim : Option Int) : Except String (List Dict) :=
  match lim with
  | none => .ok (tbl.map Prod.snd)
  | some n =>
    if n < 1 then .error "ValidationException: Limit must be a positive integer"
    else .ok ((tbl.map Prod.snd).take n.toNat)

/-- First value of a query parameter. -/
def lookupQP : List (String × String) → String → Option String
  | [], _ => none
  | (k', v) :: rest, k => if k' = k then some v else lookupQP rest k

/-- `api_handler.get_all_items` (sample 02): parse the optional `limit`
query parameter (`400` when non-numeric), pass it to `scan` only when
truthy (so `limit=0` scans without a limit), and return the formatted
records; a scan failure is answered with `500`. -/
def get_all_items (tbl : Table) (query_params : List (String × String)) :
    Nat × CrudResp :=
  match
    (match lookupQP query_params "limit" with
     | none => some none
     | some s =>
       match pyInt? s with
       | none => none
       | some n => some (some n)) with
  | none => (400, .err "Invalid limit parameter")
  | some limit =>
    let kw : Option Int :=
      match limit with
      | some n => if n ≠ 0 then some n else none
      | none => none
    match scanT tbl kw with
    | .error _ => (500, .err "Failed to retrieve items")
    | .ok items =>
      let its := items.map format_item
      (200, .items its its.length
        ("Successfully retrieved " ++ toString its.length ++ " items"))

end Crud

/-! ## Concrete fixtures used by witnesses and counterexamples -/

def objC1 : FileProc.S3Object :=
  ⟨3, "application/octet-stream", [1, 2, 3], [("file-id", "f1")]⟩

def stC1 : FileProc.Store := [("upload-bucket", "uploads/f1/x.exe", objC1)]

def rC1 : FileProc.S3Record :=
  ⟨"aws:s3", "ObjectCreated:Put", "upload-bucket", "uploads/f1/x.exe"⟩

def objC2 : FileProc.S3Object :=
  ⟨4, "application/pdf", [9, 9, 9, 9], [("file-id", "f2")]⟩

def stC2 : FileProc.Store := [("upload-bucket", "uploads/f2/doc.pdf", objC2)]

def rC2 : FileProc.S3Record :=
  ⟨"aws:s3", "ObjectCreated:Put", "upload-bucket", "uploads/f2/doc.pdf"⟩

/-- A fault environment in which every copy into the processed bucket
fails (say, the processed bucket is temporarily unavailable) while all
other calls — in particular the quarantine copy within the upload
bucket — succeed. -/
def envC4 : FileProc.Env := fun op =>
  match op with
  | FileProc.S3Op.copyOp _ _ db _ =>
    if db = "processed-bucket" then some "ServiceUnavailable" else none
  | _ => none

def tblC7 : Crud.Table :=
  [("i1", [("id", Crud.JVal.str "i1"),
           ("created_at", Crud.JVal.str "2024-01-01T00:00:00"),
           ("updated_at", Crud.JVal.str "2024-01-01T00:00:00")])]

def bodyC7 : Crud.Dict := [("updated_at", Crud.JVal.str "1999-01-01T00:00:00")]

def itemC9 : Crud.Dict := [("id", Crud.JVal.str "a")]

def tblC9 : Crud.Table := [("a", itemC9)]

/-! ## Theorems -/

/-- Folding the last-component scan across a component boundary restarts
at the boundary. -/
theorem lastComp_append_slash (p f : List Char) :
    lastComp (p ++ '/' :: f) = lastComp f := by
  simp only [lastComp]
  rw [show p ++ '/' :: f = (p ++ ['/']) ++ f from by simp, List.foldl_append,
    List.foldl_append]
  simp

/-- Storing a filename under `uploads/{file_id}/` does not change the
extension `os.path.splitext` extracts, whatever the id and filename. -/
theorem splitext_ext_upload_key (file_id filename : String) :
    splitext_ext ("uploads/" ++ file_id ++ "/" ++ filename) = splitext_ext filename := by
  unfold splitext_ext
  have hdata : ("uploads/" ++ file_id ++ "/" ++ filename).data =
      ("uploads/".data ++ file_id.data) ++ '/' :: filename.data := by
    simp [String.data_append]
  rw [hdata, lastComp_append_slash]

/-- C3: the Upload URL Issuer's `validate_upload_request` and the File
Processing Router's `validate_file` implement the same policy: under the
same configured allow-list and maximum size, the issuer accepts
`(filename, declared size)` exactly when the router accepts an object
stored at key `uploads/{file_id}/{filename}` with that size, for every
file id, filename, size and content type. -/
theorem claim_C3_validation_policies_agree (cfg : Config) (file_id filename : String)
    (file_size : Int) (content_type : String) :
    UploadApi.validate_upload_request cfg filename file_size =
      FileProc.validate_file cfg ("uploads/" ++ file_id ++ "/" ++ filename)
        file_size content_type := by
  unfold UploadApi.validate_upload_request FileProc.validate_file
  rw [splitext_ext_upload_key]
  by_cases h1 : cfg.allowedFileTypes.contains (lowerStr (splitext_ext filename)) <;>
    by_cases h2 : file_size > cfg.maxFileSizeMB * 1024 * 1024 <;>
      simp [h1, h2]

open FileProc UploadApi Crud

/-- Erasing a `(bucket, key)` pair removes exactly that pair's binding. -/
theorem lookupStore_eraseStore (st : Store) (b k b' k' : String) :
    lookupStore (eraseStore st b k) b' k' =
      if b = b' ∧ k = k' then none else lookupStore st b' k' := by
  induction st with
  | nil => simp [eraseStore, lookupStore]
  | cons e rest ih =>
    obtain ⟨eb, ek, eo⟩ := e
    simp only [eraseStore, lookupStore]
    by_cases h1 : eb = b ∧ ek = k
    · rw [if_pos h1, ih]
      by_cases h2 : b = b' ∧ k = k'
      · rw [if_pos h2, if_pos h2]
      · rw [if_neg h2, if_neg h2,
          if_neg (by rw [h1.1, h1.2]; exact h2)]
    · rw [if_neg h1]
      simp only [lookupStore]
      by_cases h3 : eb = b' ∧ ek = k'
      · rw [if_pos h3, if_pos h3,
          if_neg (fun h2 => h1 ⟨h3.1.trans h2.1.symm, h3.2.trans h2.2.symm⟩)]
      · rw [if_neg h3, if_neg h3, ih]

/-- Lookup after `putStore`. -/
theorem lookupStore_putStore (st : Store) (b k : String) (o : S3Object) (b' k' : String) :
    lookupStore (putStore st b k o) b' k' =
      if b = b' ∧ k = k' then some o else lookupStore st b' k' := by
  simp only [putStore, lookupStore, lookupStore_eraseStore]
  by_cases h : b = b' ∧ k = k' <;> simp [h, lookupStore_eraseStore]

/-- Prefixing a nonempty string changes the string. -/
theorem prepend_ne (p key : String) (hp : p.data ≠ []) : (p ++ key) ≠ key := by
  intro h
  have hl := congrArg (fun s => s.data.length) h
  simp only [String.data_append, List.length_append] at hl
  have : p.data.length = 0 := by omega
  exact hp (List.length_eq_zero.mp this)

/-- In the fault-free environment, quarantining an existing object
copies it (bytes, size, content type) under `quarantine/{key}` in the
same bucket with the quarantine metadata, then deletes the original. -/
theorem move_to_quarantine_realEnv (bucket key reason : String) (st : Store)
    (obj : S3Object) (hobj : lookupStore st bucket key = some obj) :
    move_to_quarantine realEnv bucket key reason st =
      (.ok (), eraseStore
        (putStore st bucket ("quarantine/" ++ key)
          ⟨obj.size, obj.contentType, obj.content,
           [("quarantine-reason", reason), ("original-key", key),
            ("quarantined-by", "file-upload-system")]⟩) bucket key) := by
  simp [move_to_quarantine, copy_object, delete_object, realEnv, hobj]

/-- In the fault-free environment, the pass-through path copies an
existing object under `processed/{key}` in the processed bucket with the
processing metadata, then deletes the source. -/
theorem move_to_processed_realEnv (cfg : Config) (bucket key : String) (st : Store)
    (obj : S3Object) (hobj : lookupStore st bucket key = some obj) :
    move_to_processed cfg realEnv bucket key st =
      (.ok (), eraseStore
        (putStore st cfg.processedBucket ("processed/" ++ key)
          ⟨obj.size, obj.contentType, obj.content,
           [("original-key", key), ("processed-by", "file-upload-system"),
            ("processing-status", "completed")]⟩) bucket key) := by
  simp [move_to_processed, copy_object, delete_object, realEnv, hobj]

/-- C1: for every storage-write (`ObjectCreated`) event whose object
fails validation, the router copies the object to
`quarantine/{original key}` in the same bucket with metadata
`quarantine-reason = "Validation failed"`, deletes the original key, and
writes nothing to the processed area. -/
theorem claim_C1_invalid_object_quarantined (cfg : Config) (st : Store)
    (r : S3Record) (key : String) (obj : S3Object)
    (hev : strStarts "ObjectCreated" r.eventName = true)
    (hkey : unquote_plus r.objectKey = key)
    (hobj : lookupStore st r.bucket key = some obj)
    (hval : validate_file cfg key obj.size obj.contentType = false)
    (hb : r.bucket ≠ cfg.processedBucket) :
    ∃ st', process_s3_event cfg realEnv r st = (.ok (), st') ∧
      lookupStore st' r.bucket ("quarantine/" ++ key) =
        some ⟨obj.size, obj.contentType, obj.content,
          [("quarantine-reason", "Validation failed"), ("original-key", key),
           ("quarantined-by", "file-upload-system")]⟩ ∧
      lookupStore st' r.bucket key = none ∧
      (∀ k', lookupStore st' cfg.processedBucket k' =
        lookupStore st cfg.processedBucket k') := by
  have hne : ("quarantine/" ++ key) ≠ key := prepend_ne "quarantine/" key (by decide)
  refine ⟨eraseStore
      (putStore st r.bucket ("quarantine/" ++ key)
        ⟨obj.size, obj.contentType, obj.content,
         [("quarantine-reason", "Validation failed"), ("original-key", key),
          ("quarantined-by", "file-upload-system")]⟩) r.bucket key, ?_, ?_, ?_, ?_⟩
  · simp only [process_s3_event, hkey, hev, if_true]
    simp only [process_uploaded_file, head_object, realEnv, hobj, hval]
    rw [move_to_quarantine_realEnv r.bucket key "Validation failed" st obj hobj]
    simp
  · rw [lookupStore_eraseStore, if_neg (fun h => hne h.2.symm),
      lookupStore_putStore, if_pos ⟨rfl, rfl⟩]
  · rw [lookupStore_eraseStore, if_pos ⟨rfl, rfl⟩]
  · intro k'
    rw [lookupStore_eraseStore, if_neg (fun h => hb h.1),
      lookupStore_putStore, if_neg (fun h => hb h.1)]

/-- C1 witness: a concrete `.exe` object under the default policy is
quarantined by the write event. -/
theorem claim_C1_witness :
    ∃ st', process_s3_event defaultConfig realEnv rC1 stC1 = (.ok (), st') ∧
      lookupStore st' rC1.bucket ("quarantine/" ++ "uploads/f1/x.exe") =
        some ⟨objC1.size, objC1.contentType, objC1.content,
          [("quarantine-reason", "Validation failed"),
           ("original-key", "uploads/f1/x.exe"),
           ("quarantined-by", "file-upload-system")]⟩ ∧
      lookupStore st' rC1.bucket "uploads/f1/x.exe" = none ∧
      (∀ k', lookupStore st' defaultConfig.processedBucket k' =
        lookupStore stC1 defaultConfig.processedBucket k') :=
  claim_C1_invalid_object_quarantined defaultConfig stC1 rC1 "uploads/f1/x.exe" objC1
    (by decide) (by decide) (by decide) (by decide) (by decide)

/-- C2: for every storage-write event whose object passes validation and
whose content type does not begin with `image/`, the router copies the
object to `processed/{original key}` in the processed bucket with
identical bytes and the replacement processing metadata
(`processing-status = 'completed'`), then deletes the source key. -/
theorem claim_C2_passthrough_moves_to_processed (cfg : Config) (st : Store)
    (r : S3Record) (key : String) (obj : S3Object)
    (hev : strStarts "ObjectCreated" r.eventName = true)
    (hkey : unquote_plus r.objectKey = key)
    (hobj : lookupStore st r.bucket key = some obj)
    (hval : validate_file cfg key obj.size obj.contentType = true)
    (himg : strStarts "image/" obj.contentType = false) :
    ∃ st', process_s3_event cfg realEnv r st = (.ok (), st') ∧
      lookupStore st' cfg.processedBucket ("processed/" ++ key) =
        some ⟨obj.size, obj.contentType, obj.content,
          [("original-key", key), ("processed-by", "file-upload-system"),
           ("processing-status", "completed")]⟩ ∧
      lookupStore st' r.bucket key = none := by
  have hne : ("processed/" ++ key) ≠ key := prepend_ne "processed/" key (by decide)
  refine ⟨eraseStore
      (putStore st cfg.processedBucket ("processed/" ++ key)
        ⟨obj.size, obj.contentType, obj.content,
         [("original-key", key), ("processed-by", "file-upload-system"),
          ("processing-status", "completed")]⟩) r.bucket key, ?_, ?_, ?_⟩
  · simp only [process_s3_event, hkey, hev, if_true]
    simp only [process_uploaded_file, head_object, realEnv, hobj, hval,
      dispatch_processing, himg]
    rw [move_to_processed_realEnv cfg r.bucket key st obj hobj]
    simp
  · rw [lookupStore_eraseStore, if_neg (fun h => hne h.2.symm),
      lookupStore_putStore, if_pos ⟨rfl, rfl⟩]
  · rw [lookupStore_eraseStore, if_pos ⟨rfl, rfl⟩]

/-- C2 witness: a concrete valid PDF object is moved byte-identically to
the processed area by the write event and removed from the source key. -/
theorem claim_C2_witness :
    ∃ st', process_s3_event defaultConfig realEnv rC2 stC2 = (.ok (), st') ∧
      lookupStore st' defaultConfig.processedBucket ("processed/" ++ "uploads/f2/doc.pdf") =
        some ⟨objC2.size, objC2.contentType, objC2.content,
          [("original-key", "uploads/f2/doc.pdf"),
           ("processed-by", "file-upload-system"),
           ("processing-status", "completed")]⟩ ∧
      lookupStore st' rC2.bucket "uploads/f2/doc.pdf" = none :=
  claim_C2_passthrough_moves_to_processed defaultConfig stC2 rC2 "uploads/f2/doc.pdf"
    objC2 (by decide) (by decide) (by decide) (by decide) (by decide)

/-- C4: for every write event, validation failures and failures of the
dispatched image/pass-through processing step are caught locally and
resolved by quarantining the object: the handler answers the invoking
platform with success (statusCode 200) instead of raising, the final
store being the one the (successful) quarantine move produced. -/
theorem claim_C4_failures_resolved_by_quarantine (cfg : Config) (env : Env)
    (st st1 stq : Store) (r : S3Record) (key e : String) (obj : S3Object)
    (hsrc : r.eventSource = "aws:s3")
    (hev : strStarts "ObjectCreated" r.eventName = true)
    (hkey : unquote_plus r.objectKey = key)
    (hhead : head_object env r.bucket key st = (.ok obj, st))
    (hfail :
      (validate_file cfg key obj.size obj.contentType = false ∧
        move_to_quarantine env r.bucket key "Validation failed" st = (.ok (), stq)) ∨
      (validate_file cfg key obj.size obj.contentType = true ∧
        dispatch_processing cfg env r.bucket key obj.contentType st = (.error e, st1) ∧
        move_to_quarantine env r.bucket key ("Processing error: " ++ e) st1 =
          (.ok (), stq))) :
    lambda_handler cfg env [r] st = (.ok (200, "Successfully processed files"), stq) := by
  have hbody : process_uploaded_file cfg env r.bucket key st = (.ok (), stq) := by
    rcases hfail with ⟨hv, hq⟩ | ⟨hv, hd, hq⟩
    · simp only [process_uploaded_file, hhead, hv]
      simp [hq]
    · simp only [process_uploaded_file, hhead, hv]
      simp [hd, hq]
  simp only [lambda_handler, handleRecords, hsrc, if_true]
  simp only [process_s3_event, hkey, hev, if_true, hbody, handleRecords]

/-- C4 witness: with the processed bucket unavailable, the pass-through
step for a concrete valid PDF fails; the event handler quarantines the
object with reason `Processing error: ServiceUnavailable` and still
returns 200 to the platform. -/
theorem claim_C4_witness :
    lambda_handler defaultConfig envC4 [rC2] stC2 =
      (.ok (200, "Successfully processed files"),
       [("upload-bucket", "quarantine/uploads/f2/doc.pdf",
         ⟨4, "application/pdf", [9, 9, 9, 9],
          [("quarantine-reason", "Processing error: ServiceUnavailable"),
           ("original-key", "uploads/f2/doc.pdf"),
           ("quarantined-by", "file-upload-system")]⟩)]) :=
  claim_C4_failures_resolved_by_quarantine defaultConfig envC4 stC2 stC2
    [("upload-bucket", "quarantine/uploads/f2/doc.pdf",
      ⟨4, "application/pdf", [9, 9, 9, 9],
       [("quarantine-reason", "Processing error: ServiceUnavailable"),
        ("original-key", "uploads/f2/doc.pdf"),
        ("quarantined-by", "file-upload-system")]⟩)]
    rC2 "uploads/f2/doc.pdf" "ServiceUnavailable" objC2
    rfl (by decide) (by decide) rfl
    (Or.inr ⟨by decide, rfl, rfl⟩)

/-- C5: under the default allow-list, `request_upload` rejects
`"x.exe"` with 400 for every declared size; accepts `"x.png"` with any
size up to the 10 MB maximum, answering with `expires_in = 900`; and
rejects `"x.png"` above the maximum with 400. -/
theorem claim_C5_upload_url_validation :
    (∀ (ct : Option String) (sz : Int) (fid : String),
      (get_upload_url defaultConfig fid (some ⟨some "x.exe", ct, some sz⟩)).1 = 400) ∧
    (∀ (ct : Option String) (sz : Int) (fid : String), sz ≤ 10 * 1024 * 1024 →
      ∃ u, get_upload_url defaultConfig fid (some ⟨some "x.png", ct, some sz⟩) =
        (200, .ok u fid ("uploads/" ++ fid ++ "/" ++ "x.png") 900)) ∧
    (∀ (ct : Option String) (sz : Int) (fid : String), 10 * 1024 * 1024 < sz →
      (get_upload_url defaultConfig fid (some ⟨some "x.png", ct, some sz⟩)).1 = 400) := by
  refine ⟨?_, ?_, ?_⟩
  · intro ct sz fid
    have hext : lowerStr (splitext_ext "x.exe") ∉ defaultConfig.allowedFileTypes := by
      decide
    simp [get_upload_url, validate_upload_request, hext]
  · intro ct sz fid hsz
    have hext : lowerStr (splitext_ext "x.png") ∈ defaultConfig.allowedFileTypes := by
      decide
    have hle : ¬ (sz > defaultConfig.maxFileSizeMB * 1024 * 1024) := by
      simp only [defaultConfig]
      omega
    refine ⟨presignPut defaultConfig.uploadBucket ("uploads/" ++ fid ++ "/" ++ "x.png"), ?_⟩
    simp [get_upload_url, validate_upload_request, hext, hle]
  · intro ct sz fid hsz
    have hext : lowerStr (splitext_ext "x.png") ∈ defaultConfig.allowedFileTypes := by
      decide
    have hgt : sz > defaultConfig.maxFileSizeMB * 1024 * 1024 := by
      simp only [defaultConfig]
      omega
    simp [get_upload_url, validate_upload_request, hext, hgt]

/-- C5 witness: the three behaviours at concrete sizes. -/
theorem claim_C5_witness :
    ((get_upload_url defaultConfig "f" (some ⟨some "x.exe", none, some 5⟩)).1 = 400) ∧
    (∃ u, get_upload_url defaultConfig "f" (some ⟨some "x.png", none, some 5⟩) =
      (200, .ok u "f" ("uploads/" ++ "f" ++ "/" ++ "x.png") 900)) ∧
    ((get_upload_url defaultConfig "f"
      (some ⟨some "x.png", none, some 10485761⟩)).1 = 400) :=
  ⟨claim_C5_upload_url_validation.1 none 5 "f",
   claim_C5_upload_url_validation.2.1 none 5 "f" (by decide),
   claim_C5_upload_url_validation.2.2 none 10485761 "f" (by decide)⟩

/-- A string starting with `p ++ q` starts with `p`. -/
theorem startsWithL_append_left (p q s : List Char)
    (h : startsWithL (p ++ q) s = true) : startsWithL p s = true := by
  induction p generalizing s with
  | nil => simp [startsWithL]
  | cons c cs ih =>
    cases s with
    | nil => simp [startsWithL] at h
    | cons d t =>
      simp only [List.cons_append, startsWithL, Bool.and_eq_true] at h ⊢
      exact ⟨h.1, ih t h.2⟩

/-- `strStarts` is antitone in the prefix. -/
theorem strStarts_mono (p q s : String) (h : strStarts (p ++ q) s = true) :
    strStarts p s = true := by
  unfold strStarts at *
  rw [String.data_append] at h
  exact startsWithL_append_left p.data q.data s.data h

/-- Matching heads of a successful prefix test. -/
theorem startsWithL_head_eq (c : Char) (p : List Char) (d : Char) (t : List Char)
    (h : startsWithL (c :: p) (d :: t) = true) : c = d := by
  simp only [startsWithL, Bool.and_eq_true, decide_eq_true_eq] at h
  exact h.1

/-- A key under `quarantine/` is not under `uploads/`. -/
theorem quarantine_not_uploads (s : String)
    (hq : strStarts "quarantine/" s = true) : ¬ strStarts "uploads/" s = true := by
  intro hu
  unfold strStarts at hq hu
  have hqd : ("quarantine/" : String).data = 'q' :: "uarantine/".data := rfl
  have hud : ("uploads/" : String).data = 'u' :: "ploads/".data := rfl
  rw [hqd] at hq
  rw [hud] at hu
  cases hs : s.data with
  | nil => rw [hs] at hq; simp [startsWithL] at hq
  | cons d t =>
    rw [hs] at hq hu
    have h1 := startsWithL_head_eq _ _ _ _ hq
    have h2 := startsWithL_head_eq _ _ _ _ hu
    rw [← h1] at h2
    exact absurd h2 (by decide)

/-- A key under `quarantine/` is not under `processed/`. -/
theorem quarantine_not_processed (s : String)
    (hq : strStarts "quarantine/" s = true) : ¬ strStarts "processed/" s = true := by
  intro hu
  unfold strStarts at hq hu
  have hqd : ("quarantine/" : String).data = 'q' :: "uarantine/".data := rfl
  have hud : ("processed/" : String).data = 'p' :: "rocessed/".data := rfl
  rw [hqd] at hq
  rw [hud] at hu
  cases hs : s.data with
  | nil => rw [hs] at hq; simp [startsWithL] at hq
  | cons d t =>
    rw [hs] at hq hu
    have h1 := startsWithL_head_eq _ _ _ _ hq
    have h2 := startsWithL_head_eq _ _ _ _ hu
    rw [← h1] at h2
    exact absurd h2 (by decide)

/-- The `'Contents' in list_objects_v2(...)` test, as an existential over
the store. -/
theorem existsObjPfx_iff (st : Store) (b p : String) :
    existsObjPfx st b p = true ↔
      ∃ e ∈ st, e.1 = b ∧ strStarts p e.2.1 = true := by
  simp [existsObjPfx, List.any_eq_true, Bool.and_eq_true, decide_eq_true_eq,
    and_assoc]

/-- C8: for every identifier, `get_processing_status` returns exactly one
of `completed` (an object exists under the processed prefix — checked
first), `processing` (otherwise, an object exists under the incoming
prefix) and `not_found`; it never reports `completed` and `processing`
simultaneously, and an identifier whose only objects are quarantined is
reported `not_found`. -/
theorem claim_C8_status_three_state (cfg : Config) (st : Store) (fid : String)
    (h : fid ≠ "") :
    (statusField (get_processing_status cfg st fid) = some "completed" ∨
     statusField (get_processing_status cfg st fid) = some "processing" ∨
     statusField (get_processing_status cfg st fid) = some "not_found") ∧
    (statusField (get_processing_status cfg st fid) = some "completed" ↔
      ∃ e ∈ st, e.1 = cfg.processedBucket ∧
        strStarts ("processed/uploads/" ++ fid ++ "/") e.2.1 = true) ∧
    (statusField (get_processing_status cfg st fid) = some "processing" ↔
      ((¬ ∃ e ∈ st, e.1 = cfg.processedBucket ∧
          strStarts ("processed/uploads/" ++ fid ++ "/") e.2.1 = true) ∧
       ∃ e ∈ st, e.1 = cfg.uploadBucket ∧
         strStarts ("uploads/" ++ fid ++ "/") e.2.1 = true)) ∧
    (¬ (statusField (get_processing_status cfg st fid) = some "completed" ∧
        statusField (get_processing_status cfg st fid) = some "processing")) ∧
    ((∀ e ∈ st, strStarts "quarantine/" e.2.1 = true) →
      statusField (get_processing_status cfg st fid) = some "not_found") := by
  have hcp : ("completed" : String) ≠ "processing" := by decide
  have hpc : ("processing" : String) ≠ "completed" := by decide
  have hnc : ("not_found" : String) ≠ "completed" := by decide
  have hnp : ("not_found" : String) ≠ "processing" := by decide
  have hquarP : (∀ e ∈ st, strStarts "quarantine/" e.2.1 = true) →
      ¬ ∃ e ∈ st, e.1 = cfg.processedBucket ∧
        strStarts ("processed/uploads/" ++ fid ++ "/") e.2.1 = true := by
    rintro hall ⟨e, he, _, hpfx⟩
    exact quarantine_not_processed e.2.1 (hall e he)
      (strStarts_mono "processed/" ("uploads/" ++ fid ++ "/") e.2.1
        (by rwa [show ("processed/" : String) ++ ("uploads/" ++ fid ++ "/") =
            "processed/uploads/" ++ fid ++ "/" from by
          rw [← String.append_assoc, ← String.append_assoc,
            show ("processed/" : String) ++ "uploads/" = "processed/uploads/" from rfl]]))
  have hquarU : (∀ e ∈ st, strStarts "quarantine/" e.2.1 = true) →
      ¬ ∃ e ∈ st, e.1 = cfg.uploadBucket ∧
        strStarts ("uploads/" ++ fid ++ "/") e.2.1 = true := by
    rintro hall ⟨e, he, _, hpfx⟩
    exact quarantine_not_uploads e.2.1 (hall e he)
      (strStarts_mono "uploads/" (fid ++ "/") e.2.1
        (by rwa [show ("uploads/" : String) ++ (fid ++ "/") =
            "uploads/" ++ fid ++ "/" from by rw [String.append_assoc]]))
  by_cases hp : existsObjPfx st cfg.processedBucket
      ("processed/uploads/" ++ fid ++ "/") = true
  · have hval : get_processing_status cfg st fid =
        (200, StatusResp.ok fid "completed" "File processing completed") := by
      simp [get_processing_status, if_neg h, hp]
    rw [hval]
    simp only [statusField, Option.some.injEq]
    refine ⟨Or.inl trivial, ?_, ?_, ?_, ?_⟩
    · simp only [eq_self_iff_true, true_iff]
      exact (existsObjPfx_iff st cfg.processedBucket _).mp hp
    · simp only [hcp, false_iff, not_and]
      intro hn
      exact absurd ((existsObjPfx_iff st cfg.processedBucket _).mp hp) hn
    · rintro ⟨-, hc⟩
      exact hcp hc
    · intro hall
      exact absurd ((existsObjPfx_iff st cfg.processedBucket _).mp hp) (hquarP hall)
  · by_cases hu : existsObjPfx st cfg.uploadBucket ("uploads/" ++ fid ++ "/") = true
    · have hval : get_processing_status cfg st fid =
          (200, StatusResp.ok fid "processing" "File is being processed") := by
        simp [get_processing_status, if_neg h, hp, hu]
      rw [hval]
      simp only [statusField, Option.some.injEq]
      refine ⟨Or.inr (Or.inl trivial), ?_, ?_, ?_, ?_⟩
      · simp only [hpc, false_iff]
        intro hc
        exact hp ((existsObjPfx_iff st cfg.processedBucket _).mpr hc)
      · simp only [eq_self_iff_true, true_iff]
        refine ⟨fun hc => hp ((existsObjPfx_iff st cfg.processedBucket _).mpr hc),
          (existsObjPfx_iff st cfg.uploadBucket _).mp hu⟩
      · rintro ⟨hc, -⟩
        exact hpc hc
      · intro hall
        exact absurd ((existsObjPfx_iff st cfg.uploadBucket _).mp hu) (hquarU hall)
    · have hval : get_processing_status cfg st fid =
          (200, StatusResp.ok fid "not_found" "File not found") := by
        simp [get_processing_status, if_neg h, hp, hu]
      rw [hval]
      simp only [statusField, Option.some.injEq]
      refine ⟨Or.inr (Or.inr trivial), ?_, ?_, ?_, ?_⟩
      · simp only [hnc, false_iff]
        intro hc
        exact hp ((existsObjPfx_iff st cfg.processedBucket _).mpr hc)
      · simp only [hnp, false_iff, not_and]
        intro _ hc
        exact hu ((existsObjPfx_iff st cfg.uploadBucket _).mpr hc)
      · rintro ⟨hc, -⟩
        exact hnc hc
      · intro _
        trivial

/-- C8 witness: a store holding only a quarantined object for `f3` is
reported `not_found`, and the mutual-exclusion and three-state facts
hold there. -/
theorem claim_C8_witness :
    (statusField (get_processing_status defaultConfig
        [("upload-bucket", "quarantine/uploads/f3/x.png",
          ⟨1, "image/png", [0], []⟩)] "f3") = some "completed" ∨
     statusField (get_processing_status defaultConfig
        [("upload-bucket", "quarantine/uploads/f3/x.png",
          ⟨1, "image/png", [0], []⟩)] "f3") = some "processing" ∨
     statusField (get_processing_status defaultConfig
        [("upload-bucket", "quarantine/uploads/f3/x.png",
          ⟨1, "image/png", [0], []⟩)] "f3") = some "not_found") ∧
    ((∀ e ∈ ([("upload-bucket", "quarantine/uploads/f3/x.png",
          (⟨1, "image/png", [0], []⟩ : S3Object))] : Store),
        strStarts "quarantine/" e.2.1 = true) →
      statusField (get_processing_status defaultConfig
        [("upload-bucket", "quarantine/uploads/f3/x.png",
          ⟨1, "image/png", [0], []⟩)] "f3") = some "not_found") :=
  ⟨(claim_C8_status_three_state defaultConfig
      [("upload-bucket", "quarantine/uploads/f3/x.png", ⟨1, "image/png", [0], []⟩)]
      "f3" (by decide)).1,
   (claim_C8_status_three_state defaultConfig
      [("upload-bucket", "quarantine/uploads/f3/x.png", ⟨1, "image/png", [0], []⟩)]
      "f3" (by decide)).2.2.2.2⟩

/-- Assignment stores the value under the key. -/
theorem getk_setk_self (d : Dict) (k : String) (v : JVal) :
    getk (setk d k v) k = some v := by
  induction d with
  | nil => simp [setk, getk]
  | cons kv rest ih =>
    obtain ⟨k', v'⟩ := kv
    by_cases h : k' = k
    · simp [setk, h, getk]
    · simp [setk, h, getk, ih]

/-- Assignment leaves other keys untouched. -/
theorem getk_setk_ne (d : Dict) (k k' : String) (v : JVal) (h : k' ≠ k) :
    getk (setk d k' v) k = getk d k := by
  induction d with
  | nil => simp [setk, getk, h]
  | cons kv rest ih =>
    obtain ⟨k'', v''⟩ := kv
    by_cases h2 : k'' = k'
    · simp [setk, h2, getk, h]
    · simp only [setk, h2, if_false, getk]
      by_cases h3 : k'' = k
      · simp [h3]
      · simp [h3, ih]

/-- An absent key has no binding. -/
theorem not_mem_of_getk_none (d : Dict) (k : String) (v : JVal)
    (h : getk d k = none) : (k, v) ∉ d := by
  induction d with
  | nil => simp
  | cons kv rest ih =>
    obtain ⟨k', v'⟩ := kv
    by_cases h2 : k' = k
    · simp [getk, h2] at h
    · simp only [getk, h2, if_false] at h
      simp only [List.mem_cons, not_or]
      exact ⟨fun he => h2 (congrArg Prod.fst he).symm, ih h⟩

/-- The annotation step touches only its alias key. -/
theorem getk_annotate (d : Dict) (field aliasKey k : String) (hk : aliasKey ≠ k) :
    getk (annotate d field aliasKey) k = getk d k := by
  unfold annotate
  cases h : getk d field with
  | none => rfl
  | some v => cases v <;> simp [getk_setk_ne _ _ _ _ hk]

/-- `format_item` only adds the two `*_display` annotations. -/
theorem getk_format_item (item : Dict) (k : String)
    (h1 : k ≠ "created_at_display") (h2 : k ≠ "updated_at_display") :
    getk (format_item item) k = getk item k := by
  unfold format_item
  rw [getk_annotate _ _ _ _ (Ne.symm h2), getk_annotate _ _ _ _ (Ne.symm h1)]

/-- The create-merge loop leaves a key alone when every body binding of
that key is one of the excluded fields (in particular when the body
never binds it). -/
theorem getk_mergeBody_untouched (body item : Dict) (k : String)
    (h : ∀ kv ∈ body, kv.1 = k →
      (kv.1 = "id" ∨ kv.1 = "created_at" ∨ kv.1 = "updated_at")) :
    getk (mergeBody item body) k = getk item k := by
  induction body generalizing item with
  | nil => rfl
  | cons kv rest ih =>
    simp only [mergeBody]
    by_cases he : kv.1 = "id" ∨ kv.1 = "created_at" ∨ kv.1 = "updated_at"
    · rw [if_pos he]
      exact ih item (fun kv' h' hk => h kv' (List.mem_cons_of_mem _ h') hk)
    · rw [if_neg he]
      have hkne : kv.1 ≠ k := fun hk => he (h kv (List.mem_cons_self _ _) hk)
      rw [ih (setk item kv.1 kv.2)
          (fun kv' h' hk => h kv' (List.mem_cons_of_mem _ h') hk),
        getk_setk_ne _ _ _ _ hkne]

/-- C6: every create call with a non-empty body returns 201 with an item
whose `created_at` equals its `updated_at`, whose identifier is the
freshly generated one (so, under uuid freshness, never previously
issued, whatever `id` the caller supplied), and with the documented
defaults for absent fields; an empty body fails with 400. -/
theorem claim_C6_create_semantics :
    (∀ (tbl : Table) (item_id now : String) (body : Dict), body ≠ [] →
      ∃ fi msg, (create_item tbl item_id now body).1 = (201, CrudResp.item fi msg) ∧
        getk fi "id" = some (JVal.str item_id) ∧
        getk fi "created_at" = some (JVal.str now) ∧
        getk fi "updated_at" = some (JVal.str now) ∧
        (getk body "name" = none → getk fi "name" = some (JVal.str "Untitled")) ∧
        (getk body "description" = none → getk fi "description" = some (JVal.str "")) ∧
        (getk body "category" = none → getk fi "category" = some (JVal.str "general")) ∧
        (getk body "status" = none → getk fi "status" = some (JVal.str "active")) ∧
        (∀ issued : List String, item_id ∉ issued →
          ∃ v, getk fi "id" = some (JVal.str v) ∧ v ∉ issued)) ∧
    (∀ (tbl : Table) (item_id now : String),
      (create_item tbl item_id now []).1 = (400, CrudResp.err "Request body is required")) := by
  refine ⟨?_, fun tbl item_id now => rfl⟩
  intro tbl item_id now body hne
  have hvac : ∀ (f : String) (v : JVal), getk body f = none →
      ∀ kv ∈ body, kv.1 = f →
        (kv.1 = "id" ∨ kv.1 = "created_at" ∨ kv.1 = "updated_at") := by
    intro f v hf kv hm hk
    exact absurd (show (f, kv.2) ∈ body by rw [← hk]; exact hm)
      (not_mem_of_getk_none body f kv.2 hf)
  have hid : getk (format_item (mergeBody
      [("id", JVal.str item_id),
       ("name", (getk body "name").getD (JVal.str "Untitled")),
       ("description", (getk body "description").getD (JVal.str "")),
       ("category", (getk body "category").getD (JVal.str "general")),
       ("created_at", JVal.str now),
       ("updated_at", JVal.str now),
       ("status", JVal.str "active")] body)) "id" = some (JVal.str item_id) := by
    rw [getk_format_item _ _ (by decide) (by decide),
      getk_mergeBody_untouched _ _ _ (fun kv _ hk => Or.inl hk)]
    rfl
  refine ⟨_, "Item " ++ item_id ++ " created successfully", ?_, hid, ?_, ?_, ?_, ?_,
    ?_, ?_, fun issued hni => ⟨item_id, hid, hni⟩⟩
  · unfold create_item
    rw [if_neg hne]
  · rw [getk_format_item _ _ (by decide) (by decide),
      getk_mergeBody_untouched _ _ _ (fun kv _ hk => Or.inr (Or.inl hk))]
    rfl
  · rw [getk_format_item _ _ (by decide) (by decide),
      getk_mergeBody_untouched _ _ _ (fun kv _ hk => Or.inr (Or.inr hk))]
    rfl
  · intro hf
    rw [getk_format_item _ _ (by decide) (by decide),
      getk_mergeBody_untouched _ _ _ (hvac "name" JVal.null hf), show
        getk [("id", JVal.str item_id),
          ("name", (getk body "name").getD (JVal.str "Untitled")),
          ("description", (getk body "description").getD (JVal.str "")),
          ("category", (getk body "category").getD (JVal.str "general")),
          ("created_at", JVal.str now),
          ("updated_at", JVal.str now),
          ("status", JVal.str "active")] "name" =
        some ((getk body "name").getD (JVal.str "Untitled")) from rfl, hf]
    rfl
  · intro hf
    rw [getk_format_item _ _ (by decide) (by decide),
      getk_mergeBody_untouched _ _ _ (hvac "description" JVal.null hf), show
        getk [("id", JVal.str item_id),
          ("name", (getk body "name").getD (JVal.str "Untitled")),
          ("description", (getk body "description").getD (JVal.str "")),
          ("category", (getk body "category").getD (JVal.str "general")),
          ("created_at", JVal.str now),
          ("updated_at", JVal.str now),
          ("status", JVal.str "active")] "description" =
        some ((getk body "description").getD (JVal.str "")) from rfl, hf]
    rfl
  · intro hf
    rw [getk_format_item _ _ (by decide) (by decide),
      getk_mergeBody_untouched _ _ _ (hvac "category" JVal.null hf), show
        getk [("id", JVal.str item_id),
          ("name", (getk body "name").getD (JVal.str "Untitled")),
          ("description", (getk body "description").getD (JVal.str "")),
          ("category", (getk body "category").getD (JVal.str "general")),
          ("created_at", JVal.str now),
          ("updated_at", JVal.str now),
          ("status", JVal.str "active")] "category" =
        some ((getk body "category").getD (JVal.str "general")) from rfl, hf]
    rfl
  · intro hf
    rw [getk_format_item _ _ (by decide) (by decide),
      getk_mergeBody_untouched _ _ _ (hvac "status" JVal.null hf)]
    rfl

/-- C6 witness: concrete create calls with a one-field body and with an
empty body. -/
theorem claim_C6_witness :
    (∃ fi msg, (create_item [] "id9" "T1"
        [("name", JVal.str "n")]).1 = (201, CrudResp.item fi msg) ∧
      getk fi "id" = some (JVal.str "id9") ∧
      getk fi "created_at" = some (JVal.str "T1") ∧
      getk fi "updated_at" = some (JVal.str "T1") ∧
      (getk [("name", JVal.str "n")] "name" = none →
        getk fi "name" = some (JVal.str "Untitled")) ∧
      (getk [("name", JVal.str "n")] "description" = none →
        getk fi "description" = some (JVal.str "")) ∧
      (getk [("name", JVal.str "n")] "category" = none →
        getk fi "category" = some (JVal.str "general")) ∧
      (getk [("name", JVal.str "n")] "status" = none →
        getk fi "status" = some (JVal.str "active")) ∧
      (∀ issued : List String, "id9" ∉ issued →
        ∃ v, getk fi "id" = some (JVal.str v) ∧ v ∉ issued)) ∧
    ((create_item [] "id9" "T1" []).1 = (400, CrudResp.err "Request body is required")) :=
  ⟨claim_C6_create_semantics.1 [] "id9" "T1" [("name", JVal.str "n")] (by decide),
   claim_C6_create_semantics.2 [] "id9" "T1"⟩

/-- Prepending the expression-value sigil is injective. -/
theorem colon_append_inj (a b : String) (h : ":" ++ a = ":" ++ b) : a = b := by
  have hd := congrArg String.data h
  simp only [String.data_append] at hd
  exact String.ext (List.append_cancel_left hd)

/-- `tget` after `tput` finds the stored record. -/
theorem tget_tput (t : Table) (id : String) (it : Dict) :
    tget (tput t id it) id = some it := by
  simp [tput, tget]

/-- Attributes no `SET` clause names are untouched. -/
theorem getk_applyAssigns_untouched (vals : Dict) (al : List (String × String))
    (item : Dict) (k : String) (h : ∀ a ∈ al, a.1 ≠ k) :
    getk (applyAssigns vals al item) k = getk item k := by
  induction al generalizing item with
  | nil => rfl
  | cons a rest ih =>
    cases hv : getk vals a.2 with
    | none =>
      simp only [applyAssigns, hv]
      exact ih item (fun a' h' => h a' (List.mem_cons_of_mem _ h'))
    | some v =>
      simp only [applyAssigns, hv]
      rw [ih _ (fun a' h' => h a' (List.mem_cons_of_mem _ h')),
        getk_setk_ne _ _ _ _ (h a (List.mem_cons_self _ _))]

/-- Expression-value names no body field maps to keep their initial
binding. -/
theorem getk_buildVals_untouched (body acc : Dict) (q : String)
    (h : ∀ kv ∈ body, ":" ++ kv.1 ≠ q) :
    getk (buildVals acc body) q = getk acc q := by
  induction body generalizing acc with
  | nil => rfl
  | cons kv rest ih =>
    simp only [buildVals]
    by_cases he : excludedUpd kv.1 = true
    · rw [if_pos he]
      exact ih _ (fun kv' h' => h kv' (List.mem_cons_of_mem _ h'))
    · rw [if_neg he]
      rw [ih _ (fun kv' h' => h kv' (List.mem_cons_of_mem _ h')),
        getk_setk_ne _ _ _ _ (h kv (List.mem_cons_self _ _))]

/-- With duplicate-free body keys, `:{k}` ends up bound to the body's
value for `k` (for a non-excluded field). -/
theorem getk_buildVals_mem (body : Dict) (acc : Dict) (k : String) (v : JVal)
    (hnd : (body.map Prod.fst).Nodup) (hm : (k, v) ∈ body)
    (hex : excludedUpd k = false) :
    getk (buildVals acc body) (":" ++ k) = some v := by
  induction body generalizing acc with
  | nil => cases hm
  | cons kv rest ih =>
    have hnd' : (rest.map Prod.fst).Nodup := by
      simp only [List.map_cons, List.nodup_cons] at hnd
      exact hnd.2
    have hnotin : kv.1 ∉ rest.map Prod.fst := by
      simp only [List.map_cons, List.nodup_cons] at hnd
      exact hnd.1
    rcases List.mem_cons.mp hm with heq | hmr
    · have h1 : kv.1 = k := (congrArg Prod.fst heq).symm
      have h2 : kv.2 = v := (congrArg Prod.snd heq).symm
      have huntouched : ∀ kv' ∈ rest, ":" ++ kv'.1 ≠ ":" ++ k := by
        intro kv' h' hc
        have hk' : kv'.1 = k := colon_append_inj _ _ hc
        have hmem : kv'.1 ∈ rest.map Prod.fst := List.mem_map_of_mem Prod.fst h'
        rw [hk', ← h1] at hmem
        exact hnotin hmem
      simp only [buildVals, h1, hex, Bool.false_eq_true, if_false]
      rw [getk_buildVals_untouched rest _ _ huntouched, h2, getk_setk_self]
    · simp only [buildVals]
      by_cases he : excludedUpd kv.1 = true
      · rw [if_pos he]
        exact ih _ hnd' hmr
      · rw [if_neg he]
        exact ih _ hnd' hmr

/-- Shape of the clauses generated from the body. -/
theorem mem_buildAssigns (body : Dict) (a : String × String)
    (h : a ∈ buildAssigns body) :
    ∃ kv ∈ body, excludedUpd kv.1 = false ∧ a = (kv.1, ":" ++ kv.1) := by
  simp only [buildAssigns, List.mem_filterMap] at h
  obtain ⟨kv, hm, hf⟩ := h
  by_cases he : excludedUpd kv.1 = true
  · rw [if_pos he] at hf
    cases hf
  · rw [if_neg he] at hf
    exact ⟨kv, hm, by simpa using he, (Option.some.inj hf).symm⟩

/-- With duplicate-free body keys and `:{k}` resolving to `v`, applying
the generated clauses stores `v` under `k`. -/
theorem getk_applyAssigns_buildAssigns (body vals item : Dict) (k : String) (v : JVal)
    (hnd : (body.map Prod.fst).Nodup) (hm : (k, v) ∈ body)
    (hex : excludedUpd k = false) (hval : getk vals (":" ++ k) = some v) :
    getk (applyAssigns vals (buildAssigns body) item) k = some v := by
  induction body generalizing item with
  | nil => cases hm
  | cons kv rest ih =>
    have hnd' : (rest.map Prod.fst).Nodup := by
      simp only [List.map_cons, List.nodup_cons] at hnd
      exact hnd.2
    have hnotin : kv.1 ∉ rest.map Prod.fst := by
      simp only [List.map_cons, List.nodup_cons] at hnd
      exact hnd.1
    rcases List.mem_cons.mp hm with heq | hmr
    · have h1 : kv.1 = k := (congrArg Prod.fst heq).symm
      have huntouched : ∀ a ∈ buildAssigns rest, a.1 ≠ k := by
        intro a ha
        obtain ⟨kv', hm', -, ha'⟩ := mem_buildAssigns rest a ha
        rw [ha']
        intro hk'
        have hk2 : kv'.1 = k := hk'
        have hmem : kv'.1 ∈ rest.map Prod.fst := List.mem_map_of_mem Prod.fst hm'
        rw [hk2, ← h1] at hmem
        exact hnotin hmem
      simp only [buildAssigns, List.filterMap_cons, h1, hex, Bool.false_eq_true,
        if_false]
      simp only [applyAssigns, hval]
      have hres : getk (applyAssigns vals (buildAssigns rest) (setk item k v)) k =
          some v := by
        rw [getk_applyAssigns_untouched _ _ _ _ huntouched, getk_setk_self]
      exact hres
    · simp only [buildAssigns, List.filterMap_cons]
      by_cases he : excludedUpd kv.1 = true
      · rw [if_pos he]
        exact ih item hnd' hmr
      · rw [if_neg he]
        cases hv : getk vals (":" ++ kv.1) with
        | none =>
          simp only [applyAssigns, hv]
          exact ih item hnd' hmr
        | some w =>
          simp only [applyAssigns, hv]
          exact ih _ hnd' hmr

/-- C7 counterexample: an update whose body itself contains an
`updated_at` field.  The claim as stated says `updated_at` is refreshed
to the update time and strictly increases for every non-empty body; here
the caller's value wins (the `:updated_at` expression value is
overwritten, as a Python dict assignment), so the stored `updated_at` is
the caller's `1999-...`, not the update time `2025-...`, and it
decreases below the pre-update `2024-...`. -/
theorem claim_C7_counterexample :
    (tget (update_item tblC7 "i1" "2025-01-01T00:00:00" bodyC7).2 "i1").bind
        (fun it => getk it "updated_at") = some (JVal.str "1999-01-01T00:00:00") ∧
    (JVal.str "1999-01-01T00:00:00") ≠ (JVal.str "2025-01-01T00:00:00") := by
  exact ⟨by decide, by decide⟩

/-- C7 (amended): for every update call on an existing item whose
non-empty body has duplicate-free keys and does not itself contain an
`updated_at` field, the result's `id` and `created_at` equal their
pre-update values (caller-supplied `id`/`created_at` are excluded from
the merge), `updated_at` is refreshed to the update time — hence
strictly increases whenever the clock does —, and every other
caller-supplied field is merged into the stored item. -/
theorem claim_C7_update_preserves_identity (tbl : Table) (item_id now : String)
    (body existing : Dict)
    (hne : body ≠ [])
    (hget : tget tbl item_id = some existing)
    (hnd : (body.map Prod.fst).Nodup)
    (hbu : getk body "updated_at" = none) :
    ∃ newItem,
      (update_item tbl item_id now body).1 =
        (200, CrudResp.item (format_item newItem)
          ("Item " ++ item_id ++ " updated successfully")) ∧
      tget (update_item tbl item_id now body).2 item_id = some newItem ∧
      getk newItem "id" = getk existing "id" ∧
      getk newItem "created_at" = getk existing "created_at" ∧
      getk newItem "updated_at" = some (JVal.str now) ∧
      (∀ k v, (k, v) ∈ body → k ≠ "id" → k ≠ "created_at" →
        getk newItem k = some v) ∧
      (∀ u, getk existing "updated_at" = some (JVal.str u) → u < now →
        ∃ w, getk newItem "updated_at" = some (JVal.str w) ∧ u < w) := by
  have hbody_nu : ∀ kv ∈ body, kv.1 ≠ "updated_at" := by
    intro kv hm hk
    exact absurd (show ("updated_at", kv.2) ∈ body by rw [← hk]; exact hm)
      (not_mem_of_getk_none body "updated_at" kv.2 hbu)
  have hvals : getk (buildVals [(":updated_at", JVal.str now)] body) ":updated_at" =
      some (JVal.str now) := by
    rw [getk_buildVals_untouched body _ ":updated_at" (fun kv hm hc =>
      hbody_nu kv hm (colon_append_inj kv.1 "updated_at" (by rw [hc]; rfl)))]
    rfl
  have htail : ∀ a ∈ buildAssigns body, a.1 ≠ "updated_at" := by
    intro a ha
    obtain ⟨kv', hm', -, ha'⟩ := mem_buildAssigns body a ha
    rw [ha']
    intro hk'
    exact hbody_nu kv' hm' hk'
  have hupd : getk (applyAssigns (buildVals [(":updated_at", JVal.str now)] body)
      (("updated_at", ":updated_at") :: buildAssigns body) existing) "updated_at" =
      some (JVal.str now) := by
    simp only [applyAssigns, hvals]
    rw [getk_applyAssigns_untouched _ _ _ _ htail, getk_setk_self]
  refine ⟨applyAssigns (buildVals [(":updated_at", JVal.str now)] body)
      (("updated_at", ":updated_at") :: buildAssigns body) existing,
    ?_, ?_, ?_, ?_, hupd, ?_, fun u hu hlt => ⟨now, hupd, hlt⟩⟩
  · simp only [update_item, if_neg hne, hget]
  · simp only [update_item, if_neg hne, hget]
    exact tget_tput _ _ _
  · simp only [applyAssigns, hvals]
    have h1 : ∀ a ∈ buildAssigns body, a.1 ≠ "id" := by
      intro a ha
      obtain ⟨kv', -, hex', ha'⟩ := mem_buildAssigns body a ha
      rw [ha']
      intro hk'
      have hk2 : kv'.1 = "id" := hk'
      rw [excludedUpd, hk2] at hex'
      exact absurd hex' (by decide)
    rw [getk_applyAssigns_untouched _ _ _ _ h1,
      getk_setk_ne _ _ _ _ (by decide)]
  · simp only [applyAssigns, hvals]
    have h1 : ∀ a ∈ buildAssigns body, a.1 ≠ "created_at" := by
      intro a ha
      obtain ⟨kv', -, hex', ha'⟩ := mem_buildAssigns body a ha
      rw [ha']
      intro hk'
      have hk2 : kv'.1 = "created_at" := hk'
      rw [excludedUpd, hk2] at hex'
      exact absurd hex' (by decide)
    rw [getk_applyAssigns_untouched _ _ _ _ h1,
      getk_setk_ne _ _ _ _ (by decide)]
  · intro k v hm hk1 hk2
    have hex : excludedUpd k = false := by
      simp [excludedUpd, hk1, hk2]
    have hval : getk (buildVals [(":updated_at", JVal.str now)] body) (":" ++ k) =
        some v := getk_buildVals_mem body _ k v hnd hm hex
    simp only [applyAssigns, hvals]
    exact getk_applyAssigns_buildAssigns body _ _ k v hnd hm hex hval

/-- C7 witness: a concrete update of an existing item with body
`{"name": "n"}`. -/
theorem claim_C7_witness :
    ∃ newItem,
      (update_item tblC7 "i1" "2025-01-01T00:00:00" [("name", JVal.str "n")]).1 =
        (200, CrudResp.item (format_item newItem)
          ("Item " ++ "i1" ++ " updated successfully")) ∧
      tget (update_item tblC7 "i1" "2025-01-01T00:00:00"
        [("name", JVal.str "n")]).2 "i1" = some newItem ∧
      getk newItem "id" = getk [("id", Crud.JVal.str "i1"),
        ("created_at", Crud.JVal.str "2024-01-01T00:00:00"),
        ("updated_at", Crud.JVal.str "2024-01-01T00:00:00")] "id" ∧
      getk newItem "created_at" = getk [("id", Crud.JVal.str "i1"),
        ("created_at", Crud.JVal.str "2024-01-01T00:00:00"),
        ("updated_at", Crud.JVal.str "2024-01-01T00:00:00")] "created_at" ∧
      getk newItem "updated_at" = some (JVal.str "2025-01-01T00:00:00") ∧
      (∀ k v, (k, v) ∈ ([("name", JVal.str "n")] : Dict) → k ≠ "id" →
        k ≠ "created_at" → getk newItem k = some v) ∧
      (∀ u, getk [("id", Crud.JVal.str "i1"),
          ("created_at", Crud.JVal.str "2024-01-01T00:00:00"),
          ("updated_at", Crud.JVal.str "2024-01-01T00:00:00")] "updated_at" =
            some (JVal.str u) → u < "2025-01-01T00:00:00" →
        ∃ w, getk newItem "updated_at" = some (JVal.str w) ∧ u < w) :=
  claim_C7_update_preserves_identity tblC7 "i1" "2025-01-01T00:00:00"
    [("name", JVal.str "n")]
    [("id", Crud.JVal.str "i1"),
     ("created_at", Crud.JVal.str "2024-01-01T00:00:00"),
     ("updated_at", Crud.JVal.str "2024-01-01T00:00:00")]
    (by decide) (by decide) (by decide) (by decide)

/-- C9 counterexample: `limit=0` is numeric, but Python's truthiness test
(`if limit:`) drops `Limit=0`, so the scan is unbounded and a one-record
table returns 1 record — more than the requested 0. -/
theorem claim_C9_counterexample :
    (get_all_items tblC9 [("limit", "0")]).2 =
      CrudResp.items [itemC9] 1 "Successfully retrieved 1 items" ∧
    ¬ ((1 : Int) ≤ 0) :=
  ⟨by decide, by decide⟩

/-- C9 (amended): `list` with a non-numeric limit fails with 400, and for
every numeric limit n ≥ 1 it returns at most n records (limit 0 is
treated as absent by the truthiness test and returns all records, as the
counterexample shows). -/
theorem claim_C9_limit_handling :
    (∀ (tbl : Table) (s : String), pyInt? s = none →
      get_all_items tbl [("limit", s)] =
        (400, CrudResp.err "Invalid limit parameter")) ∧
    (∀ (tbl : Table) (s : String) (n : Int), pyInt? s = some n → 1 ≤ n →
      ∃ its msg, get_all_items tbl [("limit", s)] =
        (200, CrudResp.items its its.length msg) ∧
        (its.length : Int) ≤ n) := by
  constructor
  · intro tbl s hp
    simp [get_all_items, lookupQP, hp]
  · intro tbl s n hp hn
    have hne : n ≠ 0 := by omega
    have hlt : ¬ (n < 1) := by omega
    refine ⟨((tbl.map Prod.snd).take n.toNat).map format_item,
      "Successfully retrieved " ++
        toString (((tbl.map Prod.snd).take n.toNat).map format_item).length ++
        " items", ?_, ?_⟩
    · simp [get_all_items, lookupQP, hp, hne, scanT, hlt]
    · have h1 : (((tbl.map Prod.snd).take n.toNat).map format_item).length ≤
          n.toNat := by
        rw [List.length_map]
        exact List.length_take_le _ _
      have h2 : ((n.toNat : Int)) = n := Int.toNat_of_nonneg (by omega)
      omega

/-- C9 witness: `limit=abc` and `limit=2` on a concrete table. -/
theorem claim_C9_witness :
    (get_all_items tblC9 [("limit", "abc")] =
      (400, CrudResp.err "Invalid limit parameter")) ∧
    (∃ its msg, get_all_items tblC9 [("limit", "2")] =
      (200, CrudResp.items its its.length msg) ∧ (its.length : Int) ≤ 2) :=
  ⟨claim_C9_limit_handling.1 tblC9 "abc" (by decide),
   claim_C9_limit_handling.2 tblC9 "2" 2 (by decide) (by decide)⟩

/-- C10: in `update_item` the empty-body check precedes the existence
check: an update with an empty body returns 400 even when the identifier
does not exist — never 404 in that case. -/
theorem claim_C10_empty_body_before_existence (tbl : Table) (item_id now : String)
    (h : tget tbl item_id = none) :
    (update_item tbl item_id now []).1 =
      (400, CrudResp.err "Request body is required") ∧
    (update_item tbl item_id now []).1.1 ≠ 404 := by
  refine ⟨rfl, ?_⟩
  have h400 : (update_item tbl item_id now []).1.1 = 400 := rfl
  rw [h400]
  decide

/-- C10 witness: empty body against an empty table. -/
theorem claim_C10_witness :
    ((update_item [] "absent" "T" []).1 =
      (400, CrudResp.err "Request body is required")) ∧
    ((update_item [] "absent" "T" []).1.1 ≠ 404) :=
  claim_C10_empty_body_before_existence [] "absent" "T" (by decide)
